import Mathlib

/-!
Shallow embedding of the speciation / reproduction core of goNEAT
(file neat/genetics/species.go) together with proofs about its behaviour.

Floating point values of the Go code are modelled by exact rationals (ℚ),
Go `int` by ℤ, and every index access that can abort at runtime
(index out of range) is modelled by `Option` / an explicit `panic`
constructor.  The genome is an external collaborator of this core, so the
embedding is parametric in the genome type `G` and a record `GenomeOps G`
of its operations.  The shared pseudo random generator is modelled by an
oracle `RandSrc` holding the successive values of the three kinds of
draws the code performs (`rand.Float64`, `rand.Int31n`, the Gaussian
draw), consumed in call order through explicit counters.
-/

namespace GoNEAT

/-- The operations of the external genome collaborator (spec section 6).
`mutateAddLink` also receives the population and the trial count in the
Go code; both are irrelevant to this core's control flow and folded into
the opaque operation. -/
structure GenomeOps (G : Type) where
  duplicate : G → Nat → G
  compatibility : G → G → ℚ
  mutateLinkWeights : G → ℚ → G
  mutateAddLink : G → G
  mutateAddNode : G → G
  mutateAllNonstructural : G → G
  mateMultipoint : G → G → Nat → ℚ → ℚ → G
  mateMultipointAvg : G → G → Nat → ℚ → ℚ → G
  mateSinglepoint : G → G → Nat → G
  genomeId : G → Int

/-- The `Organism` entity (struct Organism of the Go code, fields as used
by species.go; the back pointer `SpeciesOf` is modelled by the species id). -/
structure Organism (G : Type) where
  gnome : G
  fitness : ℚ
  originalFitness : ℚ
  expectedOffspring : ℚ
  isChampion : Bool
  toEliminate : Bool
  superChampOffspring : Int
  isPopulationChampion : Bool
  isPopulationChampionChild : Bool
  highestFitness : ℚ
  mutationStructBaby : Bool
  mateBaby : Bool
  generation : Nat
  speciesOf : Option Int
  deriving DecidableEq, Repr

/-- Modelled from the spec: the Organism constructor `NewOrganism(fit, g,
generation)` lives in organism.go which is not part of the analysed
source; per spec section 3 it wraps a genome with the given fitness and
generation, with all status flags clear. -/
def newOrganism {G : Type} (fit : ℚ) (g : G) (generation : Nat) : Organism G :=
  { gnome := g
    fitness := fit
    originalFitness := 0
    expectedOffspring := 0
    isChampion := false
    toEliminate := false
    superChampOffspring := 0
    isPopulationChampion := false
    isPopulationChampionChild := false
    highestFitness := 0
    mutationStructBaby := false
    mateBaby := false
    generation := generation
    speciesOf := none }

/-- The `Species` struct of species.go. -/
structure Species (G : Type) where
  id : Int
  age : Int
  avgFitness : ℚ
  maxFitness : ℚ
  maxFitnessEver : ℚ
  expectedOffspring : Int
  isNovel : Bool
  isChecked : Bool
  organisms : List (Organism G)
  ageOfLastImprovement : Int
  deriving DecidableEq, Repr

/-- `newSpecies` / `NewSpecies`: the private default constructor. -/
def newSpecies (G : Type) (id : Int) : Species G :=
  { id := id
    age := 1
    avgFitness := 0
    maxFitness := 0
    maxFitnessEver := 0
    expectedOffspring := 0
    isNovel := false
    isChecked := false
    organisms := []
    ageOfLastImprovement := 0 }

/-- `NewSpeciesNovel`: a novel species that will not age in its first
generation. -/
def newSpeciesNovel (G : Type) (id : Int) (novel : Bool) : Species G :=
  { newSpecies G id with isNovel := novel }

/-- The fields of the `Population` collaborator that species.go reads and
writes: the species list and the species id counter. -/
structure Population (G : Type) where
  species : List (Species G)
  lastSpecies : Int
  deriving DecidableEq, Repr

/-- The configuration options of `neat.Neat` read by species.go
(spec section 6). -/
structure NeatConf where
  dropOffAge : Int
  ageSignificance : ℚ
  survivalThresh : ℚ
  weightMutPower : ℚ
  mutateOnlyProb : ℚ
  mutateAddNodeProb : ℚ
  mutateAddLinkProb : ℚ
  interspeciesMateRate : ℚ
  mateMultipointProb : ℚ
  mateMultipointAvgProb : ℚ
  mateSinglepointProb : ℚ
  mateOnlyProb : ℚ
  newLinkTries : Int
  compatThreshold : ℚ
  popSize : Int
  deriving DecidableEq, Repr

variable {G : Type}

/-! ## `addOrganism` and `removeOrganism` (species.go lines 65-82) -/

/-- `addOrganism`: append the organism to the species. -/
def addOrganism [DecidableEq G] (s : Species G) (o : Organism G) : Species G :=
  { s with organisms := s.organisms ++ [o] }

/-- `removeOrganism`: filter out the (pointer-)equal organisms; when the
filtered list has not exactly one element less, report an error and leave
the species untouched. -/
def removeOrganism [DecidableEq G] (s : Species G) (org : Organism G) :
    Bool × Option String × Species G :=
  let orgs := s.organisms.filter (fun o => ¬(o = org))
  if (orgs.length : Int) ≠ (s.organisms.length : Int) - 1 then
    (false, some ("ALERT: Attempt to remove nonexistent Organism from Species"), s)
  else
    (true, none, { s with organisms := orgs })

/-! ## `countOffspring` (species.go lines 164-186)

Go's `math.Floor` is `Int.floor` on ℚ; `math.Mod(x, 1.0)` is the
remainder of truncated division, i.e. `x - trunc x`. -/

/-- Go truncation toward zero (the behaviour of `math.Trunc` and of the
implicit truncation in `math.Mod(x, 1.0)`). -/
def goTrunc (x : ℚ) : Int :=
  if x < 0 then ⌈x⌉ else ⌊x⌋

/-- `math.Mod(x, 1.0)`. -/
def goMod1 (x : ℚ) : ℚ :=
  x - (goTrunc x : ℚ)

/-- The loop body of `countOffspring`, iterated over the organisms'
individual `ExpectedOffspring` values.  State: current skim and the
accumulated species level integer total. -/
def countOffspringLoop : ℚ → Int → List ℚ → Int × ℚ
  | skim, acc, [] => (acc, skim)
  | skim, acc, x :: xs =>
      let acc1 := acc + ⌊x⌋
      let skim1 := skim + goMod1 x
      if 1 ≤ skim1 then
        countOffspringLoop (skim1 - (⌊skim1⌋ : ℚ)) (acc1 + ⌊skim1⌋) xs
      else
        countOffspringLoop skim1 acc1 xs

/-- `countOffspring`: sets the species level `ExpectedOffspring` and
returns the leftover skim. -/
def countOffspring (s : Species G) (skim : ℚ) : Species G × ℚ :=
  let r := countOffspringLoop skim 0 (s.organisms.map (fun o => o.expectedOffspring))
  ({ s with expectedOffspring := r.1 }, r.2)

/-- The generation driver's rank-ordered chaining of `countOffspring`
across species, carrying each leftover skim into the next call
(spec sections 2 and 4.3). -/
def countOffspringChain (skim : ℚ) : List (Species G) → List (Species G) × ℚ
  | [] => ([], skim)
  | s :: rest =>
      let r := countOffspring s skim
      let rr := countOffspringChain r.2 rest
      (r.1 :: rr.1, rr.2)

lemma goMod1_of_nonneg {x : ℚ} (hx : 0 ≤ x) : goMod1 x = x - (⌊x⌋ : ℚ) := by
  simp [goMod1, goTrunc, not_lt.mpr hx]

lemma countOffspringLoop_conserves (xs : List ℚ) :
    ∀ skim : ℚ, ∀ acc : Int, (∀ x ∈ xs, 0 ≤ x) →
      ((countOffspringLoop skim acc xs).1 : ℚ) + (countOffspringLoop skim acc xs).2
        = (acc : ℚ) + skim + xs.sum := by
  induction xs with
  | nil => intro skim acc _; simp [countOffspringLoop]
  | cons x xs ih =>
      intro skim acc hxs
      have hx : 0 ≤ x := hxs x (List.mem_cons_self x xs)
      have hxs' : ∀ y ∈ xs, 0 ≤ y := fun y hy => hxs y (List.mem_cons_of_mem x hy)
      rw [countOffspringLoop]
      simp only [goMod1_of_nonneg hx]
      by_cases hsk : 1 ≤ skim + (x - (⌊x⌋ : ℚ))
      · rw [if_pos hsk, ih _ _ hxs']
        push_cast
        ring_nf
        rw [List.sum_cons]
        ring
      · rw [if_neg hsk, ih _ _ hxs']
        push_cast
        rw [List.sum_cons]
        ring

lemma countOffspringLoop_invariant (xs : List ℚ) :
    ∀ skim : ℚ, ∀ acc : Int, (∀ x ∈ xs, 0 ≤ x) → 0 ≤ skim → 0 ≤ acc →
      0 ≤ (countOffspringLoop skim acc xs).1 ∧ 0 ≤ (countOffspringLoop skim acc xs).2 ∧
      (skim < 1 → (countOffspringLoop skim acc xs).2 < 1) := by
  induction xs with
  | nil => intro skim acc _ hs ha; exact ⟨ha, hs, fun h => h⟩
  | cons x xs ih =>
      intro skim acc hxs hs ha
      have hx : 0 ≤ x := hxs x (List.mem_cons_self x xs)
      have hxs' : ∀ y ∈ xs, 0 ≤ y := fun y hy => hxs y (List.mem_cons_of_mem x hy)
      have hfx : (⌊x⌋ : ℚ) ≤ x := Int.floor_le x
      have hfx0 : 0 ≤ ⌊x⌋ := Int.le_floor.mpr (by exact_mod_cast hx)
      have hs1 : 0 ≤ skim + (x - (⌊x⌋ : ℚ)) := by
        have : 0 ≤ x - (⌊x⌋ : ℚ) := by linarith
        linarith
      rw [countOffspringLoop]
      simp only [goMod1_of_nonneg hx]
      by_cases hsk : 1 ≤ skim + (x - (⌊x⌋ : ℚ))
      · rw [if_pos hsk]
        have hfs : 1 ≤ ⌊skim + (x - (⌊x⌋ : ℚ))⌋ := Int.le_floor.mpr (by exact_mod_cast hsk)
        have h0 : 0 ≤ skim + (x - (⌊x⌋ : ℚ)) - (⌊skim + (x - (⌊x⌋ : ℚ))⌋ : ℚ) := by
          have := Int.floor_le (skim + (x - (⌊x⌋ : ℚ)))
          linarith
        have h1 : skim + (x - (⌊x⌋ : ℚ)) - (⌊skim + (x - (⌊x⌋ : ℚ))⌋ : ℚ) < 1 := by
          have := Int.lt_floor_add_one (skim + (x - (⌊x⌋ : ℚ)))
          linarith
        have := ih _ (acc + ⌊x⌋ + ⌊skim + (x - (⌊x⌋ : ℚ))⌋) hxs' h0 (by positivity)
        exact ⟨this.1, this.2.1, fun _ => this.2.2 h1⟩
      · rw [if_neg hsk]
        have := ih _ (acc + ⌊x⌋) hxs' hs1 (by positivity)
        exact ⟨this.1, this.2.1, fun _ => this.2.2 (lt_of_not_le hsk)⟩

lemma countOffspring_spec (s : Species G) (skim : ℚ)
    (hx : ∀ o ∈ s.organisms, 0 ≤ o.expectedOffspring) (hs : 0 ≤ skim) :
    0 ≤ (countOffspring s skim).1.expectedOffspring ∧
    0 ≤ (countOffspring s skim).2 ∧
    (skim < 1 → (countOffspring s skim).2 < 1) ∧
    ((countOffspring s skim).1.expectedOffspring : ℚ) + (countOffspring s skim).2
      = skim + (s.organisms.map (fun o => o.expectedOffspring)).sum := by
  have hxs : ∀ x ∈ s.organisms.map (fun o => o.expectedOffspring), 0 ≤ x := by
    intro x hxm
    obtain ⟨o, ho, rfl⟩ := List.mem_map.mp hxm
    exact hx o ho
  have hinv := countOffspringLoop_invariant
    (s.organisms.map (fun o => o.expectedOffspring)) skim 0 hxs hs le_rfl
  have hcon := countOffspringLoop_conserves
    (s.organisms.map (fun o => o.expectedOffspring)) skim 0 hxs
  refine ⟨hinv.1, hinv.2.1, hinv.2.2, ?_⟩
  simpa [countOffspring] using hcon

lemma countOffspringChain_spec (ss : List (Species G)) :
    ∀ skim : ℚ, (∀ sp ∈ ss, ∀ o ∈ sp.organisms, 0 ≤ o.expectedOffspring) → 0 ≤ skim →
    (((countOffspringChain skim ss).1.map (fun sp => (sp.expectedOffspring : ℚ))).sum
        + (countOffspringChain skim ss).2
      = skim + (ss.map (fun sp => (sp.organisms.map (fun o => o.expectedOffspring)).sum)).sum) ∧
    0 ≤ (countOffspringChain skim ss).2 ∧
    (skim < 1 → (countOffspringChain skim ss).2 < 1) := by
  induction ss with
  | nil => intro skim _ hs; refine ⟨by simp [countOffspringChain], hs, fun h => h⟩
  | cons s ss ih =>
      intro skim hall hs
      have hsp := countOffspring_spec s skim
        (hall s (List.mem_cons_self s ss)) hs
      have ihh := ih (countOffspring s skim).2
        (fun sp hsp' => hall sp (List.mem_cons_of_mem s hsp')) hsp.2.1
      constructor
      · show ((countOffspring s skim).1.expectedOffspring : ℚ)
            + ((countOffspringChain (countOffspring s skim).2 ss).1.map
                (fun sp => (sp.expectedOffspring : ℚ))).sum
            + (countOffspringChain (countOffspring s skim).2 ss).2 = _
        rw [add_assoc, ihh.1]
        rw [List.map_cons, List.sum_cons]
        linarith [hsp.2.2.2]
      · refine ⟨ihh.2.1, fun hlt => ihh.2.2 (hsp.2.2.1 hlt)⟩

/-! ## Claim C3 -/

/-- Claim C3: for every species whose organisms all have non-negative
individual expected-offspring values and every non-negative initial skim,
`countOffspring` sets the species-level `ExpectedOffspring` to a
non-negative integer and returns a leftover skim such that, under exact
rational arithmetic, the species `ExpectedOffspring` plus the returned
skim equals the initial skim plus the sum of the organisms' individual
`ExpectedOffspring` values; chained across a sequence of species in rank
order, the sum of all integer totals plus the final leftover skim equals
the sum of all individual shares, deviating from the ideal total by less
than 1. -/
theorem C3_offspring_conservation {G : Type} (s : Species G) (skim : ℚ)
    (hx : ∀ o ∈ s.organisms, 0 ≤ o.expectedOffspring) (hs : 0 ≤ skim) :
    (0 ≤ (countOffspring s skim).1.expectedOffspring ∧
     ((countOffspring s skim).1.expectedOffspring : ℚ) + (countOffspring s skim).2
       = skim + (s.organisms.map (fun o => o.expectedOffspring)).sum) ∧
    (∀ ss : List (Species G),
      (∀ sp ∈ ss, ∀ o ∈ sp.organisms, 0 ≤ o.expectedOffspring) →
      ((countOffspringChain 0 ss).1.map (fun sp => (sp.expectedOffspring : ℚ))).sum
          + (countOffspringChain 0 ss).2
        = (ss.map (fun sp => (sp.organisms.map (fun o => o.expectedOffspring)).sum)).sum ∧
      |((countOffspringChain 0 ss).1.map (fun sp => (sp.expectedOffspring : ℚ))).sum
          - (ss.map (fun sp => (sp.organisms.map (fun o => o.expectedOffspring)).sum)).sum| < 1) := by
  have h1 := countOffspring_spec s skim hx hs
  refine ⟨⟨h1.1, h1.2.2.2⟩, ?_⟩
  intro ss hall
  have h2 := countOffspringChain_spec ss 0 hall le_rfl
  have hcons : ((countOffspringChain 0 ss).1.map (fun sp => (sp.expectedOffspring : ℚ))).sum
      + (countOffspringChain 0 ss).2
      = (ss.map (fun sp => (sp.organisms.map (fun o => o.expectedOffspring)).sum)).sum := by
    simpa using h2.1
  refine ⟨hcons, ?_⟩
  have hge : 0 ≤ (countOffspringChain 0 ss).2 := h2.2.1
  have hlt : (countOffspringChain 0 ss).2 < 1 := h2.2.2 (by norm_num)
  rw [abs_lt]
  constructor <;> linarith

/-- A concrete one-organism species used to instantiate claim C3: its
single organism carries the fractional individual share 8/5 = 1.6. -/
def sC3 : Species Nat :=
  { newSpecies Nat 1 with organisms := [{ newOrganism 0 0 0 with expectedOffspring := 8/5 }] }

/-- Witness for claim C3: instantiating the theorem on the concrete
species `sC3` with initial skim 0 discharges every hypothesis. -/
theorem C3_offspring_conservation_witness :
    (0 ≤ (countOffspring sC3 0).1.expectedOffspring ∧
     ((countOffspring sC3 0).1.expectedOffspring : ℚ) + (countOffspring sC3 0).2
       = 0 + (sC3.organisms.map (fun o => o.expectedOffspring)).sum) ∧
    ((countOffspringChain 0 [sC3, sC3]).1.map (fun sp => (sp.expectedOffspring : ℚ))).sum
        + (countOffspringChain 0 [sC3, sC3]).2
      = ([sC3, sC3].map (fun sp => (sp.organisms.map (fun o => o.expectedOffspring)).sum)).sum := by
  have hx : ∀ o ∈ sC3.organisms, 0 ≤ o.expectedOffspring := by
    intro o ho
    simp only [sC3, newSpecies, newOrganism, List.mem_singleton] at ho
    subst ho
    norm_num
  have h := C3_offspring_conservation sC3 0 hx le_rfl
  exact ⟨h.1, (h.2 [sC3, sC3] (by intro sp hsp; simp only [List.mem_cons, List.not_mem_nil, or_false] at hsp; rcases hsp with rfl | rfl <;> exact hx)).1⟩

/-! ## `adjustFitness` (species.go lines 86-136) -/

/-- Line 87: the raw age debt `(age - ageOfLastImprovement + 1) - dropOffAge`. -/
def ageDebtRaw (conf : NeatConf) (s : Species G) : Int :=
  (s.age - s.ageOfLastImprovement + 1) - conf.dropOffAge

/-- Lines 88-90: a raw debt of exactly 0 is forced to 1. -/
def ageDebt (conf : NeatConf) (s : Species G) : Int :=
  if ageDebtRaw conf s = 0 then 1 else ageDebtRaw conf s

/-- Lines 98-101: the stagnation penalty divides fitness by 100 whenever
the (forced) age debt is at least 1. -/
def stagePenalty (conf : NeatConf) (s : Species G) (f : ℚ) : ℚ :=
  if 1 ≤ ageDebt conf s then f * (1/100) else f

/-- Lines 106-108: the youth boost multiplies fitness by
`ageSignificance` while the species is at most 10 generations old. -/
def stageBoost (conf : NeatConf) (s : Species G) (f : ℚ) : ℚ :=
  if s.age ≤ 10 then f * conf.ageSignificance else f

/-- Lines 110-112: a negative fitness is clamped to 0.0001. -/
def stageClamp (f : ℚ) : ℚ :=
  if f < 0 then 1/10000 else f

/-- Line 115: fitness sharing divides fitness by the species size. -/
def stageShare (n : Nat) (f : ℚ) : ℚ :=
  f / (n : ℚ)

/-- Lines 92-116: the whole per-organism adjustment (the fitness before
any modification is remembered as `originalFitness`). -/
def orgAdjust (conf : NeatConf) (s : Species G) (n : Nat) (o : Organism G) : Organism G :=
  { o with
    originalFitness := o.fitness
    fitness := stageShare n (stageClamp (stageBoost conf s (stagePenalty conf s o.fitness))) }

/-- Line 119 sorts with `sort.Sort(ByFitness(...))`: the comparator
`ByFitness` lives in organism.go, which is not part of the analysed
source (its direction — descending by post-adjustment fitness — is
modelled from spec section 4.1 step 7), and Go's `sort.Sort` guarantees
only a comparator-ordered permutation, nothing about the relative order
of equal elements.  This insertion step realizes one admissible
implementation of that contract, used for the concrete refinement
`adjustFitness` and for concrete runs; no claim relies on how it orders
equal-fitness organisms. -/
def insertByFitness (o : Organism G) : List (Organism G) → List (Organism G)
  | [] => [o]
  | h :: t => if o.fitness < h.fitness then h :: insertByFitness o t else o :: h :: t

/-- One admissible implementation of the line 119 sort call (see
`insertByFitness`); `SortContract` below captures exactly what
`sort.Sort` promises, and the claims about the program quantify over
every implementation satisfying it. -/
def sortByFitness (l : List (Organism G)) : List (Organism G) :=
  l.foldr insertByFitness []

/-- Line 132: mark the first organism of the sorted list as champion. -/
def markChamp : List (Organism G) → List (Organism G)
  | [] => []
  | o :: t => { o with isChampion := true } :: t

/-- Lines 133-135: mark every organism at position `≥ np` for
elimination (`i` is the position of the list head). -/
def markElim (np : Int) (i : Nat) : List (Organism G) → List (Organism G)
  | [] => []
  | o :: t =>
      { o with toEliminate := if np ≤ (i : Int) then true else o.toEliminate }
        :: markElim np (i + 1) t

/-- Line 129: `num_parents = floor(survivalThresh * size + 1.0)`. -/
def numParents (conf : NeatConf) (n : Nat) : Int :=
  ⌊conf.survivalThresh * (n : ℚ) + 1⌋

/-- `adjustFitness` (lines 86-136).  `none` models the runtime aborts of
the Go code: the `s.Organisms[0]` access on an empty species (line 122)
and an elimination loop starting at a negative index (line 133). -/
def adjustFitness (conf : NeatConf) (s : Species G) : Option (Species G) :=
  let n := s.organisms.length
  let sorted := sortByFitness (s.organisms.map (orgAdjust conf s n))
  match sorted.head? with
  | none => none
  | some top =>
      let aoli := if s.maxFitnessEver < top.originalFitness
                  then s.age else s.ageOfLastImprovement
      let mfe := if s.maxFitnessEver < top.originalFitness
                 then top.originalFitness else s.maxFitnessEver
      let np := numParents conf n
      if np < 0 then none
      else some { s with
                  organisms := markElim np 0 (markChamp sorted)
                  ageOfLastImprovement := aoli
                  maxFitnessEver := mfe }

/-- `adjustFitness` with the delegated line 119 sort left as an explicit
parameter: properties of the program must hold for every implementation
the `sort.Sort` contract admits (see `SortContract` below), since the
standard library sort specifies the order of equal elements no further.
`adjustFitness` above is the refinement by the concrete implementation
`sortByFitness`. -/
def adjustFitnessWith (sortFn : List (Organism G) → List (Organism G))
    (conf : NeatConf) (s : Species G) : Option (Species G) :=
  let n := s.organisms.length
  let sorted := sortFn (s.organisms.map (orgAdjust conf s n))
  match sorted.head? with
  | none => none
  | some top =>
      let aoli := if s.maxFitnessEver < top.originalFitness
                  then s.age else s.ageOfLastImprovement
      let mfe := if s.maxFitnessEver < top.originalFitness
                 then top.originalFitness else s.maxFitnessEver
      let np := numParents conf n
      if np < 0 then none
      else some { s with
                  organisms := markElim np 0 (markChamp sorted)
                  ageOfLastImprovement := aoli
                  maxFitnessEver := mfe }

lemma adjustFitness_eq_with (conf : NeatConf) (s : Species G) :
    adjustFitness conf s = adjustFitnessWith sortByFitness conf s := rfl

/-! ### Lemmas about the sort implementations -/

lemma insertByFitness_perm (o : Organism G) (l : List (Organism G)) :
    List.Perm (insertByFitness o l) (o :: l) := by
  induction l with
  | nil => simp [insertByFitness]
  | cons h t ih =>
      rw [insertByFitness]
      by_cases hc : o.fitness < h.fitness
      · rw [if_pos hc]
        exact ((ih).cons h).trans (List.Perm.swap o h t)
      · rw [if_neg hc]

lemma sortByFitness_perm (l : List (Organism G)) :
    List.Perm (sortByFitness l) l := by
  induction l with
  | nil => simp [sortByFitness]
  | cons h t ih =>
      show List.Perm (insertByFitness h (sortByFitness t)) (h :: t)
      exact (insertByFitness_perm h (sortByFitness t)).trans (ih.cons h)

lemma insertByFitness_pairwise (o : Organism G) (l : List (Organism G))
    (hl : l.Pairwise (fun a b => b.fitness ≤ a.fitness)) :
    (insertByFitness o l).Pairwise (fun a b => b.fitness ≤ a.fitness) := by
  induction l with
  | nil => simp [insertByFitness]
  | cons h t ih =>
      rw [insertByFitness]
      rw [List.pairwise_cons] at hl
      by_cases hc : o.fitness < h.fitness
      · rw [if_pos hc]
        rw [List.pairwise_cons]
        constructor
        · intro b hb
          rcases List.mem_cons.mp ((insertByFitness_perm o t).mem_iff.mp hb) with rfl | hbt
          · exact le_of_lt hc
          · exact hl.1 b hbt
        · exact ih hl.2
      · rw [if_neg hc]
        push_neg at hc
        rw [List.pairwise_cons]
        refine ⟨?_, List.pairwise_cons.mpr hl⟩
        intro b hb
        rcases List.mem_cons.mp hb with rfl | hbt
        · exact hc
        · exact le_trans (hl.1 b hbt) hc

lemma sortByFitness_pairwise (l : List (Organism G)) :
    (sortByFitness l).Pairwise (fun a b => b.fitness ≤ a.fitness) := by
  induction l with
  | nil => simp [sortByFitness]
  | cons h t ih => exact insertByFitness_pairwise h (sortByFitness t) ih

/-- The contract of the delegated sort call (species.go line 119):
`sort.Sort` promises a permutation of the input ordered by the
comparator — here descending by fitness — and nothing more; in
particular it is documented as not stable, so the relative order of
equal-fitness organisms is unspecified. -/
def SortContract (sortFn : List (Organism G) → List (Organism G)) : Prop :=
  ∀ l : List (Organism G),
    List.Perm (sortFn l) l ∧ (sortFn l).Pairwise (fun a b => b.fitness ≤ a.fitness)

lemma sortByFitness_contract : SortContract (G := G) sortByFitness :=
  fun l => ⟨sortByFitness_perm l, sortByFitness_pairwise l⟩

/-- A second contract-conforming implementation of the line 119 sort
call: sorting the reversed list.  It satisfies everything `sort.Sort`
promises, yet hands equal-fitness organisms back in reversed relative
order — witnessing that stability is not part of the contract. -/
def sortByFitnessRev (l : List (Organism G)) : List (Organism G) :=
  sortByFitness l.reverse

lemma sortByFitnessRev_contract : SortContract (G := G) sortByFitnessRev :=
  fun l => ⟨(sortByFitness_perm l.reverse).trans (List.reverse_perm l),
            sortByFitness_pairwise l.reverse⟩

/-! ### Lemmas about the flag marking -/

lemma markChamp_length (l : List (Organism G)) : (markChamp l).length = l.length := by
  cases l <;> simp [markChamp]

lemma markElim_length (np : Int) (k : Nat) (l : List (Organism G)) :
    (markElim np k l).length = l.length := by
  induction l generalizing k with
  | nil => simp [markElim]
  | cons o t ih => simp [markElim, ih]

lemma markElim_getElem (np : Int) (k : Nat) (l : List (Organism G)) (i : Nat) :
    (markElim np k l)[i]? = (l[i]?).map
      (fun o => { o with
        toEliminate := if np ≤ ((k + i : Nat) : Int) then true
                       else o.toEliminate }) := by
  induction l generalizing k i with
  | nil => simp [markElim]
  | cons o t ih =>
      cases i with
      | zero => simp [markElim]
      | succ j =>
          rw [markElim, List.getElem?_cons_succ, List.getElem?_cons_succ, ih (k + 1) j]
          have hk : k + 1 + j = k + (j + 1) := by omega
          rw [hk]

lemma markChamp_getElem_zero (l : List (Organism G)) :
    (markChamp l)[0]? = (l[0]?).map (fun o => { o with isChampion := true }) := by
  cases l <;> simp [markChamp]

lemma markChamp_getElem_succ (l : List (Organism G)) (j : Nat) :
    (markChamp l)[j + 1]? = l[j + 1]? := by
  cases l <;> simp [markChamp]

lemma markElim_countP_champ (np : Int) (k : Nat) (l : List (Organism G)) :
    (markElim np k l).countP (fun o => o.isChampion) = l.countP (fun o => o.isChampion) := by
  induction l generalizing k with
  | nil => rfl
  | cons o t ih => simp [markElim, List.countP_cons, ih]

lemma markChamp_countP_champ (l : List (Organism G))
    (hall : ∀ o ∈ l, o.isChampion = false) (hne : l ≠ []) :
    (markChamp l).countP (fun o => o.isChampion) = 1 := by
  cases l with
  | nil => exact absurd rfl hne
  | cons o t =>
      rw [markChamp, List.countP_cons]
      have ht : t.countP (fun o => o.isChampion) = 0 := by
        rw [List.countP_eq_zero]
        intro a ha
        simpa using hall a (List.mem_cons_of_mem o ha)
      simp [ht]

lemma markChamp_toEliminate (l : List (Organism G))
    (hall : ∀ o ∈ l, o.toEliminate = false) :
    ∀ o ∈ markChamp l, o.toEliminate = false := by
  cases l with
  | nil => intro o ho; simp [markChamp] at ho
  | cons a t =>
      intro o ho
      rcases List.mem_cons.mp ho with rfl | ht
      · exact hall a (List.mem_cons_self a t)
      · exact hall o (List.mem_cons_of_mem a ht)

lemma markElim_countP (np : Int) (k : Nat) (l : List (Organism G))
    (hall : ∀ o ∈ l, o.toEliminate = false) :
    (markElim np k l).countP (fun o => o.toEliminate)
      = l.length - (np - k).toNat := by
  induction l generalizing k with
  | nil => simp [markElim]
  | cons o t ih =>
      have ho : o.toEliminate = false := hall o (List.mem_cons_self o t)
      have ht : ∀ x ∈ t, x.toEliminate = false :=
        fun x hx => hall x (List.mem_cons_of_mem o hx)
      rw [markElim, List.countP_cons, ih (k + 1) ht]
      by_cases hc : np ≤ (k : Int)
      · simp only [if_pos hc, List.length_cons]
        simp
        omega
      · simp only [if_neg hc, List.length_cons]
        simp [ho]
        omega

/-- Projections of an organism unaffected by the flag marking; used to
state sort stability independently of the champion / elimination flags. -/
def obsData (o : Organism G) : G × ℚ × ℚ :=
  (o.gnome, o.fitness, o.originalFitness)

lemma markChamp_map_obs (l : List (Organism G)) :
    (markChamp l).map obsData = l.map obsData := by
  cases l <;> simp [markChamp, obsData]

lemma markElim_map_obs (np : Int) (k : Nat) (l : List (Organism G)) :
    (markElim np k l).map obsData = l.map obsData := by
  induction l generalizing k with
  | nil => rfl
  | cons o t ih => simp [markElim, obsData, ih]

lemma numParents_pos (conf : NeatConf) (n : Nat) (hst : 0 ≤ conf.survivalThresh) :
    1 ≤ numParents conf n := by
  rw [numParents, Int.le_floor]
  push_cast
  nlinarith [mul_nonneg hst (Nat.cast_nonneg (α := ℚ) n)]

lemma adjustFitness_organisms (conf : NeatConf) (s : Species G)
    (hne : s.organisms ≠ []) (hst : 0 ≤ conf.survivalThresh) :
    ∃ s', adjustFitness conf s = some s' ∧
      s'.organisms
        = markElim (numParents conf s.organisms.length) 0
            (markChamp (sortByFitness
              (s.organisms.map (orgAdjust conf s s.organisms.length)))) := by
  have hsne : sortByFitness (s.organisms.map (orgAdjust conf s s.organisms.length)) ≠ [] := by
    intro hnil
    have hlen := (sortByFitness_perm
      (s.organisms.map (orgAdjust conf s s.organisms.length))).length_eq
    rw [hnil] at hlen
    simp only [List.length_nil, List.length_map] at hlen
    exact hne (List.length_eq_zero.mp hlen.symm)
  cases hsort : sortByFitness (s.organisms.map (orgAdjust conf s s.organisms.length)) with
  | nil => exact absurd hsort hsne
  | cons top rest =>
      have hnp : ¬ numParents conf s.organisms.length < 0 := by
        have := numParents_pos conf s.organisms.length hst
        omega
      refine ⟨{ s with
                organisms := markElim (numParents conf s.organisms.length) 0
                  (markChamp (top :: rest))
                ageOfLastImprovement :=
                  if s.maxFitnessEver < top.originalFitness
                  then s.age else s.ageOfLastImprovement
                maxFitnessEver :=
                  if s.maxFitnessEver < top.originalFitness
                  then top.originalFitness else s.maxFitnessEver }, ?_, rfl⟩
      rw [adjustFitness]
      simp only [hsort, List.head?_cons, if_neg hnp]

lemma orgAdjust_isChampion (conf : NeatConf) (s : Species G) (n : Nat) (o : Organism G) :
    (orgAdjust conf s n o).isChampion = o.isChampion := rfl

lemma orgAdjust_toEliminate (conf : NeatConf) (s : Species G) (n : Nat) (o : Organism G) :
    (orgAdjust conf s n o).toEliminate = o.toEliminate := rfl

lemma sorted_flags_false (conf : NeatConf) (s : Species G)
    (hflags : ∀ o ∈ s.organisms, o.isChampion = false ∧ o.toEliminate = false) :
    ∀ o ∈ sortByFitness (s.organisms.map (orgAdjust conf s s.organisms.length)),
      o.isChampion = false ∧ o.toEliminate = false := by
  intro o ho
  have homem : o ∈ s.organisms.map (orgAdjust conf s s.organisms.length) :=
    (sortByFitness_perm _).mem_iff.mp ho
  obtain ⟨o0, ho0, rfl⟩ := List.mem_map.mp homem
  exact ⟨(hflags o0 ho0).1, (hflags o0 ho0).2⟩

/-! ## Claim C5 -/

/-- Claim C5: after `adjustFitness` on a species of size n with all
status flags initially false, `organisms[0]` is the unique organism
marked champion, and exactly `max(0, n - floor(survivalThresh*n + 1.0))`
organisms are marked `toEliminate`, namely precisely those at indices
`>= floor(survivalThresh*n + 1.0)` in the post-sort order. -/
theorem C5_elimination_boundary {G : Type} (conf : NeatConf) (s : Species G)
    (hne : s.organisms ≠ []) (hst : 0 ≤ conf.survivalThresh)
    (hflags : ∀ o ∈ s.organisms, o.isChampion = false ∧ o.toEliminate = false) :
    ∃ s', adjustFitness conf s = some s' ∧
      s'.organisms.length = s.organisms.length ∧
      s'.organisms.countP (fun o => o.isChampion) = 1 ∧
      (∀ o, s'.organisms[0]? = some o → o.isChampion = true) ∧
      ((s'.organisms.countP (fun o => o.toEliminate) : Int)
        = max 0 ((s.organisms.length : Int) - numParents conf s.organisms.length)) ∧
      (∀ i : Nat, ∀ o, s'.organisms[i]? = some o →
        (o.toEliminate = true ↔ numParents conf s.organisms.length ≤ (i : Int))) := by
  obtain ⟨s', hadj, horgs⟩ := adjustFitness_organisms conf s hne hst
  have hsflags := sorted_flags_false conf s hflags
  have hmsflags : ∀ o ∈ markChamp (sortByFitness
      (s.organisms.map (orgAdjust conf s s.organisms.length))), o.toEliminate = false :=
    markChamp_toEliminate _ (fun o ho => (hsflags o ho).2)
  have hsortlen : (sortByFitness
      (s.organisms.map (orgAdjust conf s s.organisms.length))).length
        = s.organisms.length := by
    rw [(sortByFitness_perm _).length_eq, List.length_map]
  have hlen : s'.organisms.length = s.organisms.length := by
    rw [horgs, markElim_length, markChamp_length, hsortlen]
  have hsortne : sortByFitness
      (s.organisms.map (orgAdjust conf s s.organisms.length)) ≠ [] := by
    intro hnil
    rw [hnil] at hsortlen
    exact hne (List.length_eq_zero.mp hsortlen.symm)
  refine ⟨s', hadj, hlen, ?_, ?_, ?_, ?_⟩
  · rw [horgs, markElim_countP_champ,
        markChamp_countP_champ _ (fun o ho => (hsflags o ho).1) hsortne]
  · intro o ho
    rw [horgs, markElim_getElem, markChamp_getElem_zero] at ho
    rw [Option.map_map] at ho
    obtain ⟨o2, _, rfl⟩ := Option.map_eq_some'.mp ho
    rfl
  · rw [horgs, markElim_countP _ _ _ hmsflags, markChamp_length, hsortlen]
    have hnp := numParents_pos conf s.organisms.length hst
    omega
  · intro i o ho
    rw [horgs, markElim_getElem] at ho
    obtain ⟨o1, ho1, rfl⟩ := Option.map_eq_some'.mp ho
    have hmem : o1 ∈ markChamp (sortByFitness
        (s.organisms.map (orgAdjust conf s s.organisms.length))) := by
      have := List.getElem?_eq_some_iff.mp ho1
      obtain ⟨hb, hg⟩ := this
      exact hg ▸ List.getElem_mem hb
    have hflat : o1.toEliminate = false := hmsflags o1 hmem
    show (if numParents conf s.organisms.length ≤ ((0 + i : Nat) : Int) then true
          else o1.toEliminate) = true ↔ _
    by_cases hc : numParents conf s.organisms.length ≤ ((0 + i : Nat) : Int)
    · rw [if_pos hc]
      simp only [Nat.zero_add] at hc
      simpa using hc
    · rw [if_neg hc]
      simp only [Nat.zero_add] at hc
      rw [hflat]
      simp only [Bool.false_eq_true, false_iff]
      exact_mod_cast hc

/-- A concrete organism over the trivial genome type with the given
fitness and all flags clear. -/
def orgF (f : ℚ) : Organism Nat :=
  { newOrganism 0 0 0 with fitness := f }

/-- A concrete configuration mirroring the scenario of spec section 8:
`survivalThreshold = 0.4`, `ageSignificance = 1`, `dropOffAge = 15`. -/
def confC5 : NeatConf :=
  { dropOffAge := 15
    ageSignificance := 1
    survivalThresh := 2/5
    weightMutPower := 0
    mutateOnlyProb := 0
    mutateAddNodeProb := 0
    mutateAddLinkProb := 0
    interspeciesMateRate := 0
    mateMultipointProb := 0
    mateMultipointAvgProb := 0
    mateSinglepointProb := 0
    mateOnlyProb := 0
    newLinkTries := 0
    compatThreshold := 0
    popSize := 0 }

/-- The five-organism species of the spec section 8 scenario with
fitness values 10, 8, 6, 4, 2. -/
def sC5 : Species Nat :=
  { newSpecies Nat 1 with organisms := [orgF 10, orgF 8, orgF 6, orgF 4, orgF 2] }

/-- Witness for claim C5: the theorem applied to the spec section 8
scenario. -/
theorem C5_elimination_boundary_witness :
    sC5.organisms ≠ [] ∧ (0:ℚ) ≤ confC5.survivalThresh ∧
    ∃ s', adjustFitness confC5 sC5 = some s' ∧
      s'.organisms.length = sC5.organisms.length ∧
      s'.organisms.countP (fun o => o.isChampion) = 1 ∧
      (∀ o, s'.organisms[0]? = some o → o.isChampion = true) ∧
      ((s'.organisms.countP (fun o => o.toEliminate) : Int)
        = max 0 ((sC5.organisms.length : Int) - numParents confC5 sC5.organisms.length)) ∧
      (∀ i : Nat, ∀ o, s'.organisms[i]? = some o →
        (o.toEliminate = true ↔ numParents confC5 sC5.organisms.length ≤ (i : Int))) := by
  have hne : sC5.organisms ≠ [] := by simp [sC5, newSpecies]
  have hst : (0:ℚ) ≤ confC5.survivalThresh := by norm_num [confC5]
  have hflags : ∀ o ∈ sC5.organisms, o.isChampion = false ∧ o.toEliminate = false := by
    intro o ho
    simp only [sC5, newSpecies, orgF, newOrganism, List.mem_cons,
      List.not_mem_nil, or_false] at ho
    rcases ho with rfl | rfl | rfl | rfl | rfl <;> exact ⟨rfl, rfl⟩
  exact ⟨hne, hst, C5_elimination_boundary confC5 sC5 hne hst hflags⟩

lemma marked_fitness_getElem (np : Int) (l : List (Organism G)) (i : Nat) :
    ((markElim np 0 (markChamp l))[i]?).map (fun o => o.fitness)
      = (l[i]?).map (fun o => o.fitness) := by
  rw [markElim_getElem]
  cases i with
  | zero =>
      rw [markChamp_getElem_zero]
      cases l[0]? <;> rfl
  | succ j =>
      rw [markChamp_getElem_succ]
      cases l[j + 1]? <;> rfl

/-! ## Claim C6 -/

lemma adjustFitnessWith_organisms (sortFn : List (Organism G) → List (Organism G))
    (hsf : SortContract sortFn) (conf : NeatConf) (s : Species G)
    (hne : s.organisms ≠ []) (hst : 0 ≤ conf.survivalThresh) :
    ∃ s', adjustFitnessWith sortFn conf s = some s' ∧
      s'.organisms
        = markElim (numParents conf s.organisms.length) 0
            (markChamp (sortFn
              (s.organisms.map (orgAdjust conf s s.organisms.length)))) := by
  have hsne : sortFn (s.organisms.map (orgAdjust conf s s.organisms.length)) ≠ [] := by
    intro hnil
    have hlen := (hsf (s.organisms.map (orgAdjust conf s s.organisms.length))).1.length_eq
    rw [hnil] at hlen
    simp only [List.length_nil, List.length_map] at hlen
    exact hne (List.length_eq_zero.mp hlen.symm)
  cases hsort : sortFn (s.organisms.map (orgAdjust conf s s.organisms.length)) with
  | nil => exact absurd hsort hsne
  | cons top rest =>
      have hnp : ¬ numParents conf s.organisms.length < 0 := by
        have := numParents_pos conf s.organisms.length hst
        omega
      refine ⟨{ s with
                organisms := markElim (numParents conf s.organisms.length) 0
                  (markChamp (top :: rest))
                ageOfLastImprovement :=
                  if s.maxFitnessEver < top.originalFitness
                  then s.age else s.ageOfLastImprovement
                maxFitnessEver :=
                  if s.maxFitnessEver < top.originalFitness
                  then top.originalFitness else s.maxFitnessEver }, ?_, rfl⟩
      rw [adjustFitnessWith]
      simp only [hsort, List.head?_cons, if_neg hnp]

/-- Claim C6, amended: after the fitness adjustment the organism list is
sorted by descending post-adjustment fitness — for every sort
implementation the line 119 `sort.Sort` contract admits — and is a
permutation of the per-organism adjusted input; but organisms with equal
fitness are not guaranteed to retain their prior relative order:
`sort.Sort` is not stable, and a contract-conforming implementation may
reorder ties (see the counterexample). -/
theorem C6_sort_descending_contract {G : Type}
    (sortFn : List (Organism G) → List (Organism G)) (hsf : SortContract sortFn)
    (conf : NeatConf) (s : Species G)
    (hne : s.organisms ≠ []) (hst : 0 ≤ conf.survivalThresh) :
    ∃ s', adjustFitnessWith sortFn conf s = some s' ∧
      (∀ i j : Nat, ∀ oi oj, i < j →
        s'.organisms[i]? = some oi → s'.organisms[j]? = some oj →
        oj.fitness ≤ oi.fitness) ∧
      List.Perm (s'.organisms.map obsData)
        ((s.organisms.map (orgAdjust conf s s.organisms.length)).map obsData) := by
  obtain ⟨s', hadj, horgs⟩ := adjustFitnessWith_organisms sortFn hsf conf s hne hst
  refine ⟨s', hadj, ?_, ?_⟩
  · intro i j oi oj hij hoi hoj
    have h1 : ((sortFn (s.organisms.map (orgAdjust conf s s.organisms.length)))[i]?).map
        (fun o => o.fitness) = some oi.fitness := by
      rw [← marked_fitness_getElem (numParents conf s.organisms.length), ← horgs, hoi]
      rfl
    have h2 : ((sortFn (s.organisms.map (orgAdjust conf s s.organisms.length)))[j]?).map
        (fun o => o.fitness) = some oj.fitness := by
      rw [← marked_fitness_getElem (numParents conf s.organisms.length), ← horgs, hoj]
      rfl
    cases hli : (sortFn (s.organisms.map (orgAdjust conf s s.organisms.length)))[i]? with
    | none => rw [hli] at h1; exact absurd h1 (by simp)
    | some xi =>
        cases hlj : (sortFn (s.organisms.map (orgAdjust conf s s.organisms.length)))[j]? with
        | none => rw [hlj] at h2; exact absurd h2 (by simp)
        | some xj =>
            rw [hli] at h1
            rw [hlj] at h2
            have hfi : xi.fitness = oi.fitness := by simpa using h1
            have hfj : xj.fitness = oj.fitness := by simpa using h2
            obtain ⟨hbi, hgi⟩ := List.getElem?_eq_some_iff.mp hli
            obtain ⟨hbj, hgj⟩ := List.getElem?_eq_some_iff.mp hlj
            have hpw := List.pairwise_iff_getElem.mp
              (hsf (s.organisms.map (orgAdjust conf s s.organisms.length))).2 i j hbi hbj hij
            rw [hgi, hgj] at hpw
            rw [hfi, hfj] at hpw
            exact hpw
  · have hobs : s'.organisms.map obsData
        = (sortFn (s.organisms.map (orgAdjust conf s s.organisms.length))).map obsData := by
      rw [horgs, markElim_map_obs, markChamp_map_obs]
    rw [hobs]
    exact (hsf (s.organisms.map (orgAdjust conf s s.organisms.length))).1.map obsData

/-- The genome / fitness / original-fitness observations of a (possibly
aborted) fitness-adjustment run, in list order. -/
def obsList {G : Type} : Option (Species G) → List (G × ℚ × ℚ)
  | none => []
  | some sp => sp.organisms.map obsData

/-- Two organisms with equal fitness 4 and distinct genomes 1 and 2. -/
def oT1 : Organism Nat := newOrganism 4 1 0

/-- The second tied organism (genome 2). -/
def oT2 : Organism Nat := newOrganism 4 2 0

/-- A species whose two organisms are tied on fitness. -/
def sTie : Species Nat := { newSpecies Nat 1 with organisms := [oT1, oT2] }

/-- Counterexample to claim C6 as stated: `sortByFitnessRev` satisfies
everything the line 119 `sort.Sort` call guarantees (`SortContract`),
yet the fitness adjustment built on it returns the two equal-fitness
organisms of `sTie` in reversed relative order — tie preservation is a
property of a particular sort implementation, not of the program. -/
theorem C6_counterexample :
    SortContract (sortByFitnessRev (G := Nat)) ∧
    obsList (adjustFitnessWith sortByFitnessRev confC5 sTie)
      = [((2 : Nat), (2 : ℚ), (4 : ℚ)), ((1 : Nat), (2 : ℚ), (4 : ℚ))] ∧
    (sTie.organisms.map (orgAdjust confC5 sTie sTie.organisms.length)).map obsData
      = [((1 : Nat), (2 : ℚ), (4 : ℚ)), ((2 : Nat), (2 : ℚ), (4 : ℚ))] ∧
    obsList (adjustFitnessWith sortByFitnessRev confC5 sTie)
      ≠ (sTie.organisms.map (orgAdjust confC5 sTie sTie.organisms.length)).map obsData := by
  refine ⟨sortByFitnessRev_contract, ?_, ?_, ?_⟩
  · norm_num [obsList, adjustFitnessWith, sortByFitnessRev, sortByFitness, insertByFitness,
      sTie, oT1, oT2, confC5, newOrganism, newSpecies, orgAdjust, stagePenalty, stageBoost,
      stageClamp, stageShare, ageDebt, ageDebtRaw, markChamp, markElim, numParents, obsData]
  · norm_num [sTie, oT1, oT2, confC5, newOrganism, newSpecies, orgAdjust, stagePenalty,
      stageBoost, stageClamp, stageShare, ageDebt, ageDebtRaw, obsData]
  · norm_num [obsList, adjustFitnessWith, sortByFitnessRev, sortByFitness, insertByFitness,
      sTie, oT1, oT2, confC5, newOrganism, newSpecies, orgAdjust, stagePenalty, stageBoost,
      stageClamp, stageShare, ageDebt, ageDebtRaw, markChamp, markElim, numParents, obsData]

/-- Witness for the amended claim C6: the theorem applied to the
concrete implementation `sortByFitness` and the spec section 8 scenario
species. -/
theorem C6_sort_descending_contract_witness :
    SortContract (sortByFitness (G := Nat)) ∧
    ∃ s', adjustFitnessWith sortByFitness confC5 sC5 = some s' ∧
      (∀ i j : Nat, ∀ oi oj, i < j →
        s'.organisms[i]? = some oi → s'.organisms[j]? = some oj →
        oj.fitness ≤ oi.fitness) ∧
      List.Perm (s'.organisms.map obsData)
        ((sC5.organisms.map (orgAdjust confC5 sC5 sC5.organisms.length)).map obsData) := by
  refine ⟨sortByFitness_contract, ?_⟩
  exact C6_sort_descending_contract sortByFitness sortByFitness_contract confC5 sC5
    (by simp [sC5, newSpecies]) (by norm_num [confC5])

/-! ## Claim C7 -/

/-- Claim C7: the per-organism adjustment multiplies fitness by 0.01 (the
stagnation penalty) exactly when the raw age debt
`(age - ageOfLastImprovement + 1) - dropOffAge` is at least 1 or is
exactly 0 (a zero debt being forced to 1 before the test); the penalty is
a pure function of the current species state, so it applies on every call
whose state satisfies the condition, not only on the first crossing. -/
theorem C7_stagnation_penalty {G : Type} (conf : NeatConf) (s : Species G)
    (n : Nat) (o : Organism G) :
    orgAdjust conf s n o
      = { o with
          originalFitness := o.fitness
          fitness := stageShare n (stageClamp (stageBoost conf s
            (if 1 ≤ ageDebtRaw conf s ∨ ageDebtRaw conf s = 0
             then o.fitness * (1/100) else o.fitness))) } := by
  rw [orgAdjust, stagePenalty, ageDebt]
  by_cases h0 : ageDebtRaw conf s = 0
  · rw [if_pos h0, if_pos (le_refl (1:Int)), if_pos (Or.inr h0)]
  · rw [if_neg h0]
    by_cases h1 : 1 ≤ ageDebtRaw conf s
    · rw [if_pos h1, if_pos (Or.inl h1)]
    · rw [if_neg h1, if_neg (not_or.mpr ⟨h1, h0⟩)]

/-! ## Claim C8 -/

/-- The list of post-adjustment fitness values of a (possibly aborted)
`adjustFitness` run. -/
def fitnessList {G : Type} : Option (Species G) → List ℚ
  | none => []
  | some sp => sp.organisms.map (fun o => o.fitness)

/-- A one-organism species whose organism has fitness exactly 0. -/
def sC8 : Species Nat :=
  { newSpecies Nat 1 with organisms := [orgF 0] }

/-- Counterexample to claim C8 as stated: after `adjustFitness` on a
species whose single organism has fitness 0, that organism's fitness is
still exactly 0 — the clamp only catches strictly negative values, so the
post-adjustment fitness is not strictly positive. -/
theorem C8_counterexample :
    fitnessList (adjustFitness confC5 sC8) = [0] ∧ ¬ (0:ℚ) < 0 := by
  constructor
  · norm_num [fitnessList, adjustFitness, sC8, confC5, orgF, newOrganism, newSpecies,
      orgAdjust, stagePenalty, stageBoost, stageClamp, stageShare, ageDebt, ageDebtRaw,
      sortByFitness, insertByFitness, markChamp, markElim, numParents]
  · exact lt_irrefl 0

lemma stageClamp_nonneg (f : ℚ) : 0 ≤ stageClamp f := by
  rw [stageClamp]
  split
  · norm_num
  · linarith [not_lt.mp (by assumption : ¬ f < 0)]

lemma markElim_map_fitness (np : Int) (k : Nat) (l : List (Organism G)) :
    (markElim np k l).map (fun o => o.fitness) = l.map (fun o => o.fitness) := by
  induction l generalizing k with
  | nil => rfl
  | cons o t ih => simp [markElim, ih]

lemma markChamp_map_fitness (l : List (Organism G)) :
    (markChamp l).map (fun o => o.fitness) = l.map (fun o => o.fitness) := by
  cases l <;> simp [markChamp]

lemma adjustFitness_some_organisms (conf : NeatConf) (s s' : Species G)
    (hadj : adjustFitness conf s = some s') :
    s'.organisms
      = markElim (numParents conf s.organisms.length) 0
          (markChamp (sortByFitness
            (s.organisms.map (orgAdjust conf s s.organisms.length)))) := by
  rw [adjustFitness] at hadj
  cases hsort : sortByFitness (s.organisms.map (orgAdjust conf s s.organisms.length)) with
  | nil =>
      rw [hsort] at hadj
      simp at hadj
  | cons top rest =>
      rw [hsort] at hadj
      simp only [List.head?_cons] at hadj
      by_cases hnp : numParents conf s.organisms.length < 0
      · rw [if_pos hnp] at hadj
        exact absurd hadj (by simp)
      · rw [if_neg hnp] at hadj
        rw [← Option.some.inj hadj]

/-- Claim C8, amended: any fitness that is strictly negative after the
penalty and age-boost steps is clamped to 0.0001 before fitness sharing,
so after `adjustFitness` no organism's fitness is negative; a fitness of
exactly 0, however, passes the clamp unchanged and remains exactly 0. -/
theorem C8_nonnegative_fitness {G : Type} (conf : NeatConf) (s s' : Species G)
    (hadj : adjustFitness conf s = some s') :
    (∀ f : ℚ, f < 0 → stageClamp f = 1/10000) ∧
    ∀ o ∈ s'.organisms, 0 ≤ o.fitness := by
  refine ⟨fun f hf => by rw [stageClamp, if_pos hf], ?_⟩
  intro o ho
  have horgs := adjustFitness_some_organisms conf s s' hadj
  have hfmem : o.fitness ∈ s'.organisms.map (fun o => o.fitness) :=
    List.mem_map_of_mem _ ho
  rw [horgs, markElim_map_fitness, markChamp_map_fitness] at hfmem
  have hperm := (sortByFitness_perm
    (s.organisms.map (orgAdjust conf s s.organisms.length))).map (fun o => o.fitness)
  rw [hperm.mem_iff] at hfmem
  rw [List.map_map] at hfmem
  obtain ⟨o0, _, hfe⟩ := List.mem_map.mp hfmem
  have : ((orgAdjust conf s s.organisms.length) o0).fitness = o.fitness := hfe
  rw [← this]
  show 0 ≤ stageShare s.organisms.length (stageClamp _)
  rw [stageShare]
  exact div_nonneg (stageClamp_nonneg _) (Nat.cast_nonneg _)

/-- The result of `adjustFitness` on `sC8`: the zero-fitness organism,
now marked champion, keeps fitness exactly 0. -/
def sC8r : Species Nat :=
  { sC8 with organisms := [{ orgF 0 with isChampion := true }] }

/-- Witness for the amended claim C8, applied to the concrete run on
`sC8`. -/
theorem C8_nonnegative_fitness_witness :
    adjustFitness confC5 sC8 = some sC8r ∧
    ((∀ f : ℚ, f < 0 → stageClamp f = 1/10000) ∧
     ∀ o ∈ sC8r.organisms, 0 ≤ o.fitness) := by
  have heq : adjustFitness confC5 sC8 = some sC8r := by
    norm_num [adjustFitness, sC8, sC8r, confC5, orgF, newOrganism, newSpecies,
      orgAdjust, stagePenalty, stageBoost, stageClamp, stageShare, ageDebt, ageDebtRaw,
      sortByFitness, insertByFitness, markChamp, markElim, numParents]
  exact ⟨heq, C8_nonnegative_fitness confC5 sC8 sC8r heq⟩

/-! ## Claim C9 -/

/-- Claim C9: for a species honouring the unique-membership invariant of
the data model (the organism is not already a member),
`removeOrganism` after `addOrganism` restores the species to its
pre-addition organism set, and `removeOrganism` on an organism not
present returns an error and leaves the collection unchanged. -/
theorem C9_removal_symmetry {G : Type} [DecidableEq G] (s : Species G) (o : Organism G)
    (ho : o ∉ s.organisms) :
    removeOrganism (addOrganism s o) o = (true, none, s) ∧
    removeOrganism s o
      = (false, some ("ALERT: Attempt to remove nonexistent Organism from Species"), s) := by
  have hfil : s.organisms.filter (fun x => ¬(x = o)) = s.organisms := by
    apply List.filter_eq_self.mpr
    intro a ha
    simp only [decide_eq_true_eq]
    intro he
    exact ho (he ▸ ha)
  constructor
  · rw [removeOrganism]
    have horgs : (addOrganism s o).organisms.filter (fun x => ¬(x = o)) = s.organisms := by
      show (s.organisms ++ [o]).filter (fun x => ¬(x = o)) = s.organisms
      rw [List.filter_append, hfil]
      simp
    rw [horgs]
    have hlen : (addOrganism s o).organisms.length = s.organisms.length + 1 := by
      show (s.organisms ++ [o]).length = _
      simp
    rw [hlen]
    have hcond : ¬ ((s.organisms.length : Int) ≠ ((s.organisms.length + 1 : Nat) : Int) - 1) := by
      push_cast
      omega
    rw [if_neg hcond]
    show (true, none, { addOrganism s o with organisms := s.organisms }) = (true, none, s)
    rfl
  · rw [removeOrganism, hfil]
    have hcond : ((s.organisms.length : Int) ≠ (s.organisms.length : Int) - 1) := by omega
    rw [if_pos hcond]

/-- Witness for claim C9: a fresh organism (fitness 99) not present in
the five-organism scenario species. -/
theorem C9_removal_symmetry_witness :
    orgF 99 ∉ sC5.organisms ∧
    removeOrganism (addOrganism sC5 (orgF 99)) (orgF 99) = (true, none, sC5) ∧
    removeOrganism sC5 (orgF 99)
      = (false, some ("ALERT: Attempt to remove nonexistent Organism from Species"), sC5) := by
  have ho : orgF 99 ∉ sC5.organisms := by
    intro hmem
    simp only [sC5, newSpecies, List.mem_cons, List.not_mem_nil, or_false] at hmem
    rcases hmem with he | he | he | he | he <;>
      { have := congrArg (fun o => o.fitness) he
        simp only [orgF, newOrganism] at this
        norm_num at this }
  exact ⟨ho, C9_removal_symmetry sC5 (orgF 99) ho⟩

/-! ## `findChampion` (species.go lines 198-209) -/

/-- The scan of `findChampion`: running best fitness (started at 0.0)
and current champion (started nil), updated on strict improvement. -/
def findChampionLoop : ℚ → Option (Organism G) → List (Organism G) → Option (Organism G)
  | _, champ, [] => champ
  | best, champ, o :: rest =>
      if best < o.fitness then findChampionLoop o.fitness (some o) rest
      else findChampionLoop best champ rest

/-- `findChampion`. -/
def findChampion (s : Species G) : Option (Organism G) :=
  findChampionLoop 0 none s.organisms

lemma findChampionLoop_cases (l : List (Organism G)) :
    ∀ (best : ℚ) (champ : Option (Organism G)),
      (findChampionLoop best champ l = champ ∧ ∀ o ∈ l, o.fitness ≤ best) ∨
      (∃ c l1 l2, findChampionLoop best champ l = some c ∧ l = l1 ++ c :: l2 ∧
        best < c.fitness ∧ (∀ o ∈ l1, o.fitness < c.fitness) ∧
        (∀ o ∈ l2, o.fitness ≤ c.fitness)) := by
  induction l with
  | nil => intro best champ; left; exact ⟨rfl, by simp⟩
  | cons o rest ih =>
      intro best champ
      rw [findChampionLoop]
      by_cases hc : best < o.fitness
      · rw [if_pos hc]
        rcases ih o.fitness (some o) with ⟨heq, hall⟩ | ⟨c, l1, l2, heq, hdec, hbest, hl1, hl2⟩
        · right
          refine ⟨o, [], rest, heq, by simp, hc, by simp, hall⟩
        · right
          refine ⟨c, o :: l1, l2, heq, by rw [hdec]; rfl, lt_trans hc hbest, ?_, hl2⟩
          intro x hx
          rcases List.mem_cons.mp hx with rfl | hx'
          · exact hbest
          · exact hl1 x hx'
      · rw [if_neg hc]
        push_neg at hc
        rcases ih best champ with ⟨heq, hall⟩ | ⟨c, l1, l2, heq, hdec, hbest, hl1, hl2⟩
        · left
          refine ⟨heq, ?_⟩
          intro x hx
          rcases List.mem_cons.mp hx with rfl | hx'
          · exact hc
          · exact hall x hx'
        · right
          refine ⟨c, o :: l1, l2, heq, by rw [hdec]; rfl, hbest, ?_, hl2⟩
          intro x hx
          rcases List.mem_cons.mp hx with rfl | hx'
          · exact lt_of_le_of_lt hc hbest
          · exact hl1 x hx'

/-! ## Claim C10 -/

/-- Claim C10: `findChampion` returns no organism whenever every organism
has fitness at most 0 (the best-fitness comparator starts at 0.0 and only
a strictly greater fitness selects a candidate); otherwise it returns the
first organism of strictly greatest fitness in list order: every organism
before it is strictly less fit and every organism after it is at most as
fit. -/
theorem C10_findChampion {G : Type} (s : Species G) :
    ((∀ o ∈ s.organisms, o.fitness ≤ 0) → findChampion s = none) ∧
    ((∃ o ∈ s.organisms, 0 < o.fitness) → (findChampion s).isSome = true) ∧
    (∀ c, findChampion s = some c →
      0 < c.fitness ∧
      ∃ l1 l2, s.organisms = l1 ++ c :: l2 ∧
        (∀ o ∈ l1, o.fitness < c.fitness) ∧
        (∀ o ∈ l2, o.fitness ≤ c.fitness)) := by
  refine ⟨?_, ?_, ?_⟩
  · intro hall
    rcases findChampionLoop_cases s.organisms 0 none with ⟨heq, _⟩ |
      ⟨c, l1, l2, _, hdec, hbest, _, _⟩
    · exact heq
    · exfalso
      have : c ∈ s.organisms := by rw [hdec]; simp
      exact absurd (hall c this) (by linarith)
  · intro ⟨o, ho, hpos⟩
    rcases findChampionLoop_cases s.organisms 0 none with ⟨_, hall⟩ |
      ⟨c, l1, l2, heq, _, _, _, _⟩
    · exact absurd (hall o ho) (by linarith)
    · rw [findChampion, heq]
      rfl
  · intro c hch
    rcases findChampionLoop_cases s.organisms 0 none with ⟨heq, _⟩ |
      ⟨c', l1, l2, heq, hdec, hbest, hl1, hl2⟩
    · rw [findChampion] at hch
      rw [heq] at hch
      exact absurd hch (by simp)
    · rw [findChampion] at hch
      rw [heq] at hch
      have : c' = c := Option.some.inj hch
      subst this
      exact ⟨hbest, l1, l2, hdec, hl1, hl2⟩

/-- The species used to witness claim C10: fitness values 3, 5, 5 — the
champion is the first organism of maximal fitness 5. -/
def sC10 : Species Nat :=
  { newSpecies Nat 1 with organisms := [orgF 3, orgF 5, orgF 5] }

/-- Witness for claim C10: on `sC10` the returned champion is the middle
organism, the first one attaining the strictly greatest fitness 5. -/
theorem C10_findChampion_witness :
    0 < (orgF 5).fitness ∧
    ∃ l1 l2, sC10.organisms = l1 ++ (orgF 5) :: l2 ∧
      (∀ o ∈ l1, o.fitness < (orgF 5).fitness) ∧
      (∀ o ∈ l2, o.fitness ≤ (orgF 5).fitness) := by
  have heval : findChampion sC10 = some (orgF 5) := by
    rw [findChampion]
    show findChampionLoop 0 none [orgF 3, orgF 5, orgF 5] = some (orgF 5)
    rw [findChampionLoop, if_pos (by norm_num [orgF, newOrganism])]
    rw [findChampionLoop, if_pos (by norm_num [orgF, newOrganism])]
    rw [findChampionLoop, if_neg (by norm_num [orgF, newOrganism])]
    rfl
  exact (C10_findChampion sC10).2.2 (orgF 5) heval

/-! ## `reproduce` (species.go lines 212-427)

The shared pseudo random generator is an oracle of three streams,
consumed in call order through an explicit cursor: `floats` models the
successive `rand.Float64()` results, `ints` the successive
`rand.Int31n(bound)` results (reduced modulo the bound at the use site,
since `Int31n` always returns a value in `[0, bound)`), and `gauss` the
successive `gaussian.StdGaussian()` results. -/

/-- The random oracle. -/
structure RandSrc where
  floats : Nat → ℚ
  ints : Nat → Nat
  gauss : Nat → ℚ

/-- Cursor into the three streams of `RandSrc`. -/
structure RandCursor where
  fi : Nat
  ii : Nat
  gi : Nat
  deriving DecidableEq, Repr

/-- Record of one crossover-operator invocation (species.go lines
340-348), carrying the fitness arguments passed to the operator. -/
inductive CrossoverCall where
  | multipoint (momFit dadFit : ℚ)
  | multipointAvg (momFit dadFit : ℚ)
  | singlepoint
  deriving DecidableEq, Repr

/-- The pair of `originalFitness` arguments a crossover operator
receives, when it receives any. -/
def CrossoverCall.fitnessArgs : CrossoverCall → Option (ℚ × ℚ)
  | .multipoint m d => some (m, d)
  | .multipointAvg m d => some (m, d)
  | .singlepoint => none

/-- Lines 340-348: the cascading, non-normalized crossover choice.
`f1` and `f2` are the two successive `rand.Float64` draws; the caller
accounts for the fact that the second one is only consumed when the
first test fails. -/
def chooseCrossover (conf : NeatConf) (f1 f2 : ℚ) (momFit dadFit : ℚ) : CrossoverCall :=
  if f1 < conf.mateMultipointProb then .multipoint momFit dadFit
  else if f2 < conf.mateMultipointAvgProb
      / (conf.mateMultipointAvgProb + conf.mateSinglepointProb) then
    .multipointAvg momFit dadFit
  else .singlepoint

/-- The child genome produced by the chosen operator.  (In the source the
receiver of the two multipoint calls is the still-nil `new_genome`
variable — an evident transcription slip, the file does not compile as
Go — so the first parent's genome stands as receiver, as in the
reference implementation; the argument lists are exactly those of lines
342, 345 and 347, and line 347 passes no fitness values.) -/
def crossoverChild (ops : GenomeOps G) (momG dadG : G) (count : Nat) :
    CrossoverCall → G
  | .multipoint m d => ops.mateMultipoint momG dadG count m d
  | .multipointAvg m d => ops.mateMultipointAvg momG dadG count m d
  | .singlepoint => ops.mateSinglepoint momG dadG count

/-- Lines 328-331: the Gaussian-biased index into the ranked species
list: `randmult = gauss/4`, clamped from above (only) at 1.0, then
`floor(randmult * (len-1) + 0.5)`. -/
def randSpeciesIdx (g : ℚ) (n : Nat) : Int :=
  let randmult := if g / 4 > 1 then 1 else g / 4
  ⌊randmult * ((n : ℚ) - 1) + 1/2⌋

/-- Lines 324-335: up to 5 attempts to draw a species different from the
current one (species identity modelled by id; the loop keeps drawing
while the drawn species is still `s` and the budget remains).  `none`
models the abort of an index outside the ranked list's range. -/
def selectRandSpecies (r : RandSrc) (sorted : List (Species G)) (sId : Int) :
    Nat → Nat → Species G → Option (Species G × Nat)
  | 0, gi, current => some (current, gi)
  | fuel + 1, gi, current =>
      if current.id = sId then
        let idx := randSpeciesIdx (r.gauss gi) sorted.length
        if h : 0 ≤ idx ∧ idx.toNat < sorted.length then
          selectRandSpecies r sorted sId fuel (gi + 1) (sorted.get ⟨idx.toNat, h.2⟩)
        else none
      else some (current, gi)

/-- Lines 294-306 (and identically lines 357-370): the mutation cascade;
the second draw happens only when the add-node test fails.  Returns the
mutated genome, the advanced cursor, and the `mut_struct_baby` flag. -/
def mutateCascade (ops : GenomeOps G) (conf : NeatConf) (r : RandSrc)
    (cur : RandCursor) (g : G) : G × RandCursor × Bool :=
  let f1 := r.floats cur.fi
  let cur1 := { cur with fi := cur.fi + 1 }
  if f1 < conf.mutateAddNodeProb then (ops.mutateAddNode g, cur1, true)
  else
    let f2 := r.floats cur1.fi
    let cur2 := { cur1 with fi := cur1.fi + 1 }
    if f2 < conf.mutateAddLinkProb then (ops.mutateAddLink g, cur2, true)
    else (ops.mutateAllNonstructural g, cur2, false)

/-- `createFirstSpecies` (lines 421-427). -/
def createFirstSpecies (pop : Population G) (baby : Organism G) :
    Population G × Organism G :=
  let newId := pop.lastSpecies + 1
  let baby1 := { baby with speciesOf := some newId }
  let ns := { newSpeciesNovel G newId true with organisms := [baby1] }
  ({ species := pop.species ++ [ns], lastSpecies := newId }, baby1)

/-- Lines 388-407: scan the species list in order and add the baby to
the first non-empty species whose first organism is within the
compatibility threshold; `none` when no species matches. -/
def addToFirstCompat (ops : GenomeOps G) (conf : NeatConf) (baby : Organism G) :
    List (Species G) → Option (List (Species G) × Organism G)
  | [] => none
  | sp :: rest =>
      match sp.organisms.head? with
      | some compareOrg =>
          if ops.compatibility baby.gnome compareOrg.gnome < conf.compatThreshold then
            let baby1 := { baby with speciesOf := some sp.id }
            some ({ sp with organisms := sp.organisms ++ [baby1] } :: rest, baby1)
          else
            match addToFirstCompat ops conf baby rest with
            | none => none
            | some (rest1, baby1) => some (sp :: rest1, baby1)
      | none =>
          match addToFirstCompat ops conf baby rest with
          | none => none
          | some (rest1, baby1) => some (sp :: rest1, baby1)

/-- Lines 384-414: assign the baby to its proper species, creating a
fresh novel species when the population has none or none matches. -/
def speciate (ops : GenomeOps G) (conf : NeatConf) (baby : Organism G)
    (pop : Population G) : Population G × Organism G :=
  if pop.species.isEmpty then createFirstSpecies pop baby
  else
    match addToFirstCompat ops conf baby pop.species with
    | some (sl, baby1) => ({ pop with species := sl }, baby1)
    | none => createFirstSpecies pop baby

/-- Loop state of `reproduce`: the population being mutated, the
champion's remaining super-champion counter (line 280 decrements the
champion organism in place), the champion-clone flag, the RNG cursor,
and the run's observations (babies created, crossover calls made). -/
structure RepState (G : Type) where
  pop : Population G
  champSCO : Int
  champDone : Bool
  cur : RandCursor
  babies : List (Organism G)
  xcalls : List CrossoverCall

/-- One iteration of the offspring loop (lines 242-417).  `none` models
a runtime abort (index out of range).  Note that only the mating branch
ends with the species-assignment block: in the source, lines 379-414 sit
inside the final `else` of the branch cascade. -/
def reproduceStep (ops : GenomeOps G) (conf : NeatConf) (generation : Nat)
    (s : Species G) (thechamp : Organism G) (poolsize : Nat)
    (sorted : List (Species G)) (r : RandSrc) (count : Nat) (st : RepState G) :
    Option (RepState G) :=
  if st.champSCO > 0 then
    -- lines 250-280: super-champion cloning
    let dup := ops.duplicate thechamp.gnome count
    let gcur : G × RandCursor :=
      if st.champSCO > 1 then
        let f := r.floats st.cur.fi
        let cur1 := { st.cur with fi := st.cur.fi + 1 }
        if f < 4/5 ∨ conf.mutateAddLinkProb = 0 then
          (ops.mutateLinkWeights dup conf.weightMutPower, cur1)
        else
          (ops.mutateAddLink dup, cur1)
      else (dup, st.cur)
    let baby0 := newOrganism 0 gcur.1 generation
    let baby := if st.champSCO = 1 ∧ thechamp.isPopulationChampion then
        { baby0 with isPopulationChampionChild := true,
                     highestFitness := thechamp.originalFitness }
      else baby0
    some { st with champSCO := st.champSCO - 1, cur := gcur.2,
                   babies := st.babies ++ [baby] }
  else if ¬st.champDone ∧ s.expectedOffspring > 5 then
    -- lines 281-286: species-champion cloning
    let dup := ops.duplicate thechamp.gnome count
    let baby := newOrganism 0 dup generation
    some { st with champDone := true, babies := st.babies ++ [baby] }
  else
    -- line 287: the branch test consumes one float draw before the
    -- short-circuit poolsize test
    let f0 := r.floats st.cur.fi
    let cur0 := { st.cur with fi := st.cur.fi + 1 }
    if f0 < conf.mutateOnlyProb ∨ poolsize = 1 then
      -- lines 287-308: mutation-only reproduction
      match s.organisms[r.ints cur0.ii % poolsize]? with
      | none => none
      | some mom =>
          let cur1 := { cur0 with ii := cur0.ii + 1 }
          let dup := ops.duplicate mom.gnome count
          let mres := mutateCascade ops conf r cur1 dup
          let baby := newOrganism 0 mres.1 generation
          some { st with cur := mres.2.1, babies := st.babies ++ [baby] }
    else
      -- lines 309-414: mating
      match s.organisms[r.ints cur0.ii % poolsize]? with
      | none => none
      | some mom =>
          let cur1 := { cur0 with ii := cur0.ii + 1 }
          let f1 := r.floats cur1.fi
          let cur2 := { cur1 with fi := cur1.fi + 1 }
          let dadRes : Option (Organism G × RandCursor) :=
            if f1 > conf.interspeciesMateRate then
              -- lines 316-318: mate within the species
              match s.organisms[r.ints cur2.ii % poolsize]? with
              | none => none
              | some dad => some (dad, { cur2 with ii := cur2.ii + 1 })
            else
              -- lines 319-337: mate outside the species
              match selectRandSpecies r sorted s.id 5 cur2.gi s with
              | none => none
              | some (rsp, gi1) =>
                  match rsp.organisms.head? with
                  | none => none
                  | some dad => some (dad, { cur2 with gi := gi1 })
          match dadRes with
          | none => none
          | some (dad, cur3) =>
              -- lines 339-348: crossover choice; the second float draw
              -- is consumed only when the first test fails
              let fc := r.floats cur3.fi
              let fd := r.floats (cur3.fi + 1)
              let xc := chooseCrossover conf fc fd mom.originalFitness dad.originalFitness
              let cur4 := { cur3 with
                fi := cur3.fi + (if fc < conf.mateMultipointProb then 1 else 2) }
              let child := crossoverChild ops mom.gnome dad.gnome count xc
              -- lines 352-377: the mate-only gate, then optional mutation
              let fg := r.floats cur4.fi
              let cur5 := { cur4 with fi := cur4.fi + 1 }
              let gateRes : G × RandCursor × Bool :=
                if fg > conf.mateOnlyProb
                    ∨ ops.genomeId dad.gnome = ops.genomeId mom.gnome
                    ∨ ops.compatibility dad.gnome mom.gnome = 0 then
                  mutateCascade ops conf r cur5 child
                else (child, cur5, false)
              -- lines 379-414: flags and species assignment
              let baby0 := newOrganism 0 gateRes.1 generation
              let baby1 := { baby0 with mutationStructBaby := gateRes.2.2, mateBaby := true }
              let sb := speciate ops conf baby1 st.pop
              some { st with pop := sb.1, cur := gateRes.2.1,
                             babies := st.babies ++ [sb.2],
                             xcalls := st.xcalls ++ [xc] }

/-- The offspring loop (line 242), `fuel` being the remaining count. -/
def reproduceLoop (ops : GenomeOps G) (conf : NeatConf) (generation : Nat)
    (s : Species G) (thechamp : Organism G) (poolsize : Nat)
    (sorted : List (Species G)) (r : RandSrc) :
    Nat → Nat → RepState G → Option (RepState G)
  | 0, _, st => some st
  | fuel + 1, count, st =>
      match reproduceStep ops conf generation s thechamp poolsize sorted r count st with
      | none => none
      | some st1 =>
          reproduceLoop ops conf generation s thechamp poolsize sorted r fuel (count + 1) st1

/-- The outcome of `reproduce`: a runtime abort, a returned error value,
or normal completion carrying the final population and the run's
observations. -/
inductive RepResult (G : Type) where
  | panic
  | err (msg : String)
  | ok (pop : Population G) (babies : List (Organism G)) (xcalls : List CrossoverCall)
  deriving DecidableEq

/-- The final population of a completed run. -/
def RepResult.getPop {G : Type} : RepResult G → Option (Population G)
  | .ok pop _ _ => some pop
  | _ => none

/-- The organisms created by a completed run. -/
def RepResult.getBabies {G : Type} : RepResult G → List (Organism G)
  | .ok _ babies _ => babies
  | _ => []

/-- The crossover calls made by a completed run. -/
def RepResult.getXcalls {G : Type} : RepResult G → List CrossoverCall
  | .ok _ _ xcalls => xcalls
  | _ => []

/-- `reproduce` (lines 212-419).  The guard of line 214 reports an empty
species with a positive offspring count as an error; the champion access
of line 220 runs unconditionally afterwards and aborts (`.panic`) on an
empty organism list. -/
def reproduce (ops : GenomeOps G) (conf : NeatConf) (generation : Nat)
    (s : Species G) (pop : Population G) (sorted : List (Species G)) (r : RandSrc) :
    RepResult G :=
  if s.expectedOffspring > 0 ∧ s.organisms.length = 0 then
    .err ("ATTEMPT TO REPRODUCE OUT OF EMPTY SPECIES")
  else
    match s.organisms.head? with
    | none => .panic
    | some thechamp =>
        let poolsize := s.organisms.length
        match reproduceLoop ops conf generation s thechamp poolsize sorted r
            s.expectedOffspring.toNat 0
            { pop := pop, champSCO := thechamp.superChampOffspring, champDone := false,
              cur := ⟨0, 0, 0⟩, babies := [], xcalls := [] } with
        | none => .panic
        | some st => .ok st.pop st.babies st.xcalls

/-! ## Concrete instantiations for the reproduction claims -/

/-- The trivial genome collaborator over `Nat` used for concrete runs. -/
def opsTriv : GenomeOps Nat :=
  { duplicate := fun g _ => g
    compatibility := fun _ _ => 0
    mutateLinkWeights := fun g _ => g
    mutateAddLink := fun g => g
    mutateAddNode := fun g => g
    mutateAllNonstructural := fun g => g
    mateMultipoint := fun a _ _ _ _ => a
    mateMultipointAvg := fun a _ _ _ _ => a
    mateSinglepoint := fun a _ _ => a
    genomeId := fun g => (g : Int) }

/-- A constant random oracle: every float draw is 0.5, every integer
draw 0, every Gaussian draw 0. -/
def randTriv : RandSrc :=
  { floats := fun _ => 1/2
    ints := fun _ => 0
    gauss := fun _ => 0 }

/-- The empty species (`ExpectedOffspring = 0`, no organisms). -/
def sEmpty : Species Nat := newSpecies Nat 1

/-- A small population. -/
def popTriv : Population Nat := { species := [sEmpty], lastSpecies := 1 }

/-! ## Claim C2 -/

/-- Counterexample to claim C2 as stated: `reproduce` on a species with
an empty organism list and `ExpectedOffspring = 0` does not return — the
champion access `s.Organisms[0]` of line 220 runs before the loop and
aborts with an index out of range. -/
theorem C2_counterexample :
    reproduce opsTriv confC5 1 sEmpty popTriv [sEmpty] randTriv = RepResult.panic := by
  rw [reproduce]
  rw [if_neg (by simp [sEmpty, newSpecies])]
  rfl

/-- Claim C2, amended: `reproduce` reports the one failure it checks for
(an empty species with a positive offspring count) as a returned error
value, but it does abort the process on other inputs: on an empty
organism list with `ExpectedOffspring = 0` it aborts at the champion
access, and the interspecies mate-selection index, clamped only from
above, never exceeds the ranked list's upper bound but becomes negative
(and aborts) for a sufficiently negative Gaussian draw. -/
theorem C2_no_panic_amended :
    (∀ (G : Type) (ops : GenomeOps G) (conf : NeatConf) (generation : Nat)
       (s : Species G) (pop : Population G) (sorted : List (Species G)) (r : RandSrc),
       s.organisms = [] → 0 < s.expectedOffspring →
       reproduce ops conf generation s pop sorted r
         = RepResult.err ("ATTEMPT TO REPRODUCE OUT OF EMPTY SPECIES")) ∧
    (∀ (G : Type) (ops : GenomeOps G) (conf : NeatConf) (generation : Nat)
       (s : Species G) (pop : Population G) (sorted : List (Species G)) (r : RandSrc),
       s.organisms = [] → s.expectedOffspring = 0 →
       reproduce ops conf generation s pop sorted r = RepResult.panic) ∧
    (∀ (g : ℚ) (n : Nat), 1 ≤ n → randSpeciesIdx g n < (n : Int)) ∧
    randSpeciesIdx (-3) 2 = -1 := by
  refine ⟨?_, ?_, ?_, ?_⟩
  · intro G ops conf generation s pop sorted r horg heo
    rw [reproduce, if_pos ⟨heo, by rw [horg]; rfl⟩]
  · intro G ops conf generation s pop sorted r horg heo
    rw [reproduce, if_neg (by rw [heo]; intro hc; exact lt_irrefl 0 hc.1)]
    rw [horg]
    rfl
  · intro g n hn
    rw [randSpeciesIdx]
    have hm : (if g / 4 > 1 then 1 else g / 4) ≤ 1 := by
      by_cases h : g / 4 > 1
      · rw [if_pos h]
      · rw [if_neg h]
        linarith [not_lt.mp h]
    have hn1 : (0:ℚ) ≤ (n : ℚ) - 1 := by
      have : (1:ℚ) ≤ (n : ℚ) := by exact_mod_cast hn
      linarith
    have hb : (if g / 4 > 1 then 1 else g / 4) * ((n : ℚ) - 1) + 1/2
        ≤ ((n : ℚ) - 1) + 1/2 := by
      have := mul_le_mul_of_nonneg_right hm hn1
      linarith
    have hfl := Int.floor_le_floor hb
    have hright : (⌊((n : ℚ) - 1) + 1/2⌋ : Int) = (n : Int) - 1 := by
      have hcast : ((n : ℚ) - 1) + 1/2 = (1:ℚ)/2 + (((n : Int) - 1 : Int) : ℚ) := by
        push_cast
        ring
      rw [hcast, Int.floor_add_int]
      norm_num
    rw [hright] at hfl
    have : (1 : Int) ≤ (n : Int) := by exact_mod_cast hn
    omega
  · norm_num [randSpeciesIdx]

/-- A species with no organisms but a positive offspring budget. -/
def sEmptyPos : Species Nat := { newSpecies Nat 1 with expectedOffspring := 3 }

/-- Witness for the amended claim C2: the error-return part at a
concrete empty species with `ExpectedOffspring = 3`, and the index bound
at a concrete draw. -/
theorem C2_no_panic_amended_witness :
    reproduce opsTriv confC5 1 sEmptyPos popTriv [sEmpty] randTriv
      = RepResult.err ("ATTEMPT TO REPRODUCE OUT OF EMPTY SPECIES") ∧
    randSpeciesIdx 0 2 < (2 : Int) := by
  constructor
  · exact C2_no_panic_amended.1 Nat opsTriv confC5 1 sEmptyPos popTriv [sEmpty] randTriv
      rfl (by norm_num [sEmptyPos, newSpecies])
  · exact C2_no_panic_amended.2.2.1 0 2 (by norm_num)

lemma reproduce_cons (ops : GenomeOps G) (conf : NeatConf) (generation : Nat)
    (s : Species G) (pop : Population G) (sorted : List (Species G)) (r : RandSrc)
    (champ : Organism G) (rest : List (Organism G))
    (horg : s.organisms = champ :: rest) :
    reproduce ops conf generation s pop sorted r
      = match reproduceLoop ops conf generation s champ (champ :: rest).length sorted r
          s.expectedOffspring.toNat 0
          { pop := pop, champSCO := champ.superChampOffspring, champDone := false,
            cur := ⟨0, 0, 0⟩, babies := [], xcalls := [] } with
        | none => RepResult.panic
        | some st => RepResult.ok st.pop st.babies st.xcalls := by
  rw [reproduce, if_neg (by rw [horg]; rintro ⟨_, h⟩; simp at h), horg]
  rfl

/-! ## Claim C1 -/

/-- A champion organism carrying one guaranteed super-champion clone. -/
def champC1 : Organism Nat := { newOrganism 0 0 0 with superChampOffspring := 1 }

/-- A species owed exactly one offspring whose champion is `champC1`. -/
def sSuper : Species Nat :=
  { newSpecies Nat 1 with organisms := [champC1], expectedOffspring := 1 }

/-- The population holding `sSuper`. -/
def popC1 : Population Nat := { species := [sSuper], lastSpecies := 1 }

/-- Claim C1 fails on the code: reproducing `sSuper` takes the
super-champion branch, creates exactly one offspring — and assigns it to
no species at all: the species-assignment block (lines 384-414) sits
inside the mating branch only, so the run returns with the population
unchanged and the created organism a member of no species. -/
theorem C1_superchamp_offspring_lost :
    reproduce opsTriv confC5 1 sSuper popC1 [sSuper] randTriv
      = RepResult.ok popC1 [newOrganism 0 0 1] [] ∧
    (∀ sp ∈ popC1.species, newOrganism (0:ℚ) (0:Nat) 1 ∉ sp.organisms) := by
  constructor
  · rw [reproduce_cons opsTriv confC5 1 sSuper popC1 [sSuper] randTriv champC1 [] rfl]
    have hloop : reproduceLoop opsTriv confC5 1 sSuper champC1 ([champC1] : List (Organism Nat)).length
        [sSuper] randTriv sSuper.expectedOffspring.toNat 0
        { pop := popC1, champSCO := champC1.superChampOffspring, champDone := false,
          cur := ⟨0, 0, 0⟩, babies := [], xcalls := [] }
        = some { pop := popC1, champSCO := 0, champDone := false,
                 cur := ⟨0, 0, 0⟩, babies := [newOrganism 0 0 1], xcalls := [] } := by
      show reproduceLoop opsTriv confC5 1 sSuper champC1 1 [sSuper] randTriv 1 0 _ = _
      rw [reproduceLoop]
      rw [reproduceStep]
      rw [if_pos (by norm_num [champC1, newOrganism])]
      norm_num [champC1, newOrganism, opsTriv, reproduceLoop]
    rw [hloop]
  · intro sp hsp
    simp only [popC1, List.mem_singleton] at hsp
    subst hsp
    intro hmem
    simp only [sSuper, newSpecies, champC1, newOrganism, List.mem_singleton] at hmem
    have := congrArg (fun o => o.superChampOffspring) hmem
    simp at this

/-! ## Claim C4 -/

/-- First parent for the mating scenario: genome 10, original fitness 7. -/
def o41 : Organism Nat := { newOrganism 0 10 0 with originalFitness := 7 }

/-- Second organism: genome 20, original fitness 9. -/
def o42 : Organism Nat := { newOrganism 0 20 0 with originalFitness := 9 }

/-- A two-organism species owed one offspring. -/
def s4 : Species Nat :=
  { newSpecies Nat 1 with organisms := [o41, o42], expectedOffspring := 1 }

/-- The population holding `s4`. -/
def pop4 : Population Nat := { species := [s4], lastSpecies := 1 }

/-- A configuration forcing the mating branch and the singlepoint
fallthrough: all crossover probabilities 0 except
`mateSinglepointProb = 1`. -/
def conf4 : NeatConf :=
  { confC5 with compatThreshold := 1, mateSinglepointProb := 1, mateOnlyProb := 1 }

/-- Counterexample to claim C4 as stated: a mating run in which the
chosen operator is `mateSinglepoint`, which receives only the parents'
genomes and the offspring index — no `originalFitness` arguments at all
(species.go line 347). -/
theorem C4_counterexample :
    (reproduce opsTriv conf4 1 s4 pop4 [s4] randTriv).getXcalls
      = [CrossoverCall.singlepoint] ∧
    CrossoverCall.fitnessArgs CrossoverCall.singlepoint = none := by
  constructor
  · rw [reproduce_cons opsTriv conf4 1 s4 pop4 [s4] randTriv o41 [o42] rfl]
    norm_num [reproduceLoop, reproduceStep, s4, o41, o42, conf4, confC5, opsTriv,
      randTriv, newOrganism, newSpecies, mutateCascade, chooseCrossover, crossoverChild,
      speciate, addToFirstCompat, createFirstSpecies, pop4, RepResult.getXcalls,
      newSpeciesNovel]
  · rfl

/-- Claim C4, amended: in the mating branch of `reproduce` the child
genome is produced by exactly one crossover operator selected by the
cascading non-normalized thresholds of the claim; the multipoint and
multipoint-average operators receive both parents' `originalFitness`
values, but the singlepoint operator receives only the two genomes and
the offspring index. -/
theorem C4_crossover_operator_args {G : Type} (ops : GenomeOps G) (conf : NeatConf)
    (generation : Nat) (s : Species G) (thechamp : Organism G) (poolsize : Nat)
    (sorted : List (Species G)) (r : RandSrc) (count : Nat) (st : RepState G)
    (mom dad : Organism G)
    (hsco : ¬ st.champSCO > 0)
    (hch : st.champDone = true ∨ ¬ s.expectedOffspring > 5)
    (hmo : ¬ r.floats st.cur.fi < conf.mutateOnlyProb)
    (hpool : poolsize ≠ 1)
    (hinter : r.floats (st.cur.fi + 1) > conf.interspeciesMateRate)
    (hmom : s.organisms[r.ints st.cur.ii % poolsize]? = some mom)
    (hdad : s.organisms[r.ints (st.cur.ii + 1) % poolsize]? = some dad) :
    (∃ st', reproduceStep ops conf generation s thechamp poolsize sorted r count st
        = some st' ∧
      st'.xcalls = st.xcalls
        ++ [chooseCrossover conf (r.floats (st.cur.fi + 2)) (r.floats (st.cur.fi + 3))
             mom.originalFitness dad.originalFitness]) ∧
    (∀ f1 f2 m d, f1 < conf.mateMultipointProb →
       chooseCrossover conf f1 f2 m d = CrossoverCall.multipoint m d ∧
       CrossoverCall.fitnessArgs (CrossoverCall.multipoint m d) = some (m, d)) ∧
    (∀ f1 f2 m d, ¬ f1 < conf.mateMultipointProb →
       f2 < conf.mateMultipointAvgProb
         / (conf.mateMultipointAvgProb + conf.mateSinglepointProb) →
       chooseCrossover conf f1 f2 m d = CrossoverCall.multipointAvg m d ∧
       CrossoverCall.fitnessArgs (CrossoverCall.multipointAvg m d) = some (m, d)) ∧
    (∀ f1 f2 m d, ¬ f1 < conf.mateMultipointProb →
       ¬ f2 < conf.mateMultipointAvgProb
         / (conf.mateMultipointAvgProb + conf.mateSinglepointProb) →
       chooseCrossover conf f1 f2 m d = CrossoverCall.singlepoint ∧
       CrossoverCall.fitnessArgs CrossoverCall.singlepoint = none) := by
  refine ⟨?_, ?_, ?_, ?_⟩
  · simp only [reproduceStep]
    rw [if_neg hsco]
    rw [if_neg (by
      rintro ⟨h1, h2⟩
      rcases hch with hc | hc
      · exact h1 hc
      · exact hc h2)]
    rw [if_neg (not_or.mpr ⟨hmo, hpool⟩)]
    rw [hmom]
    rw [if_pos hinter]
    rw [hdad]
    exact ⟨_, rfl, rfl⟩
  · intro f1 f2 m d h
    exact ⟨by rw [chooseCrossover, if_pos h], rfl⟩
  · intro f1 f2 m d h1 h2
    exact ⟨by rw [chooseCrossover, if_neg h1, if_pos h2], rfl⟩
  · intro f1 f2 m d h1 h2
    exact ⟨by rw [chooseCrossover, if_neg h1, if_neg h2], rfl⟩

/-- The loop state entering the mating iteration of the C4 scenario. -/
def st4 : RepState Nat :=
  { pop := pop4, champSCO := 0, champDone := false,
    cur := ⟨0, 0, 0⟩, babies := [], xcalls := [] }

/-- Witness for the amended claim C4, applied to the concrete mating
scenario (both parents are the first organism, original fitness 7). -/
theorem C4_crossover_operator_args_witness :
    ∃ st', reproduceStep opsTriv conf4 1 s4 o41 2 [s4] randTriv 0 st4 = some st' ∧
      st'.xcalls = st4.xcalls
        ++ [chooseCrossover conf4 (randTriv.floats (st4.cur.fi + 2))
             (randTriv.floats (st4.cur.fi + 3))
             o41.originalFitness o41.originalFitness] :=
  (C4_crossover_operator_args opsTriv conf4 1 s4 o41 2 [s4] randTriv 0 st4 o41 o41
    (by norm_num [st4])
    (Or.inr (by norm_num [s4, newSpecies]))
    (by norm_num [randTriv, conf4, confC5, st4])
    (by norm_num)
    (by norm_num [randTriv, conf4, confC5, st4])
    (by rfl)
    (by rfl)).1

end GoNEAT
